import Mathlib

/-!
Shallow embedding of `src/ECommerceDemo.cpp` (an e-commerce cart / checkout
demo) and proofs about it.

Modelling conventions:
* C++ `double` amounts (prices, balances, weights) are embedded as `ℚ`,
  C++ `int` quantities as `ℤ`; `static_cast<int>` is truncation toward zero.
* A `Product*` pointer is embedded as a `Nat` key (`pid`), and the heap of
  product objects as a total function `Store : Nat → Product`.  The four
  product classes (simple / expirable / shippable / both) are collapsed into
  one record with an `expired` flag (the value the virtual `isExpired()`
  returns at the time considered) and an optional shipping weight, exactly
  the capabilities the code probes via virtual calls and `dynamic_cast`.
* `Cart` holds `std::map<Product*, int> items`; a `std::map` is a key-sorted
  association list, so a cart is a `List (Nat × ℤ)` kept sorted by key, and
  `items[product] += quantity` is sorted insertion with accumulation.
* Throwing / printing an error and returning is embedded as returning the
  error alongside the unchanged state.
-/

set_option maxRecDepth 100000

namespace ECommerce

/-- One product object: `name`, `price`, stock `quantity` (fields of
`Product`), the result of `isExpired()` and the optional weight carried by
the `ShippableProduct` base (present iff the `dynamic_cast` would succeed). -/
structure Product where
  name : String
  price : ℚ
  quantity : ℤ
  expired : Bool
  shipWeight : Option ℚ
deriving DecidableEq

/-- `Product::isShippable`: the `dynamic_cast<const ShippableProduct*>` test. -/
def Product.isShippable (p : Product) : Bool := p.shipWeight.isSome

/-- `ShippableProduct::getWeight` (only ever called on shippable products). -/
def Product.getWeight (p : Product) : ℚ := p.shipWeight.getD 0

/-- `Product::reduceQuantity(amount) { quantity -= amount; }` -/
def Product.reduceQuantity (p : Product) (amount : ℤ) : Product :=
  { p with quantity := p.quantity - amount }

/-- `Customer`: name and balance. -/
structure Customer where
  name : String
  balance : ℚ
deriving DecidableEq

/-- `Customer::deductBalance(amount) { balance -= amount; }` -/
def Customer.deductBalance (c : Customer) (amount : ℚ) : Customer :=
  { c with balance := c.balance - amount }

/-- The heap of product objects: every pointer (`Nat` key) dereferences to a
product. -/
def Store : Type := Nat → Product

/-- `std::map<Product*, int> items`: association list sorted by key. -/
abbrev Cart := List (Nat × ℤ)

/-- The three exceptions `Cart::add` can throw. -/
inductive AddError
  | invalidQuantity
  | expiredProduct (name : String)
  | insufficientStock (name : String)
deriving DecidableEq

/-- `items[product] += quantity` on a key-sorted `std::map`: insert at the
sorted position, accumulating into an existing entry for the same key. -/
def mapInsertAdd : Cart → Nat → ℤ → Cart
  | [], pid, q => [(pid, q)]
  | (k, v) :: rest, pid, q =>
    if pid < k then (pid, q) :: (k, v) :: rest
    else if pid = k then (k, v + q) :: rest
    else (k, v) :: mapInsertAdd rest pid q

/-- `Cart::add(product, quantity)`.  A thrown exception leaves both the heap
and the cart untouched; the error is returned alongside the unchanged state. -/
def cartAdd (st : Store) (cart : Cart) (pid : Nat) (quantity : ℤ) :
    Option AddError × Store × Cart :=
  if quantity ≤ 0 then (some .invalidQuantity, st, cart)
  else if (st pid).expired then (some (.expiredProduct (st pid).name), st, cart)
  else if quantity > (st pid).quantity then
    (some (.insufficientStock (st pid).name), st, cart)
  else (none, st, mapInsertAdd cart pid quantity)

/-- Quantity recorded in the cart for a product key (`0` when absent). -/
def cartCount : Cart → Nat → ℤ
  | [], _ => 0
  | e :: rest, pid => if e.1 = pid then e.2 else cartCount rest pid

/-- `static_cast<int>` on a `double`: truncation toward zero. -/
def truncQ (q : ℚ) : ℤ := if 0 ≤ q then ⌊q⌋ else ⌈q⌉

/-- Rounding to the nearest integer with ties to even: the value printed by
`std::fixed << std::setprecision(0)` (the `printf`-style `%.0f` conversion,
which rounds to nearest rather than truncating). -/
def roundHalfEven (q : ℚ) : ℤ :=
  if q - ⌊q⌋ < 1 / 2 then ⌊q⌋
  else if 1 / 2 < q - ⌊q⌋ then ⌊q⌋ + 1
  else if 2 ∣ ⌊q⌋ then ⌊q⌋ else ⌊q⌋ + 1

/-- The five failure notices `checkout` can print. -/
inductive CheckoutError
  | emptyCart
  | expiredProduct (name : String)
  | insufficientStock (name : String)
  | insufficientBalance
deriving DecidableEq

/-- The three resources `checkout` touches: the product heap, the customer
and the cart. -/
structure CheckoutState where
  store : Store
  customer : Customer
  cart : Cart

/-- The figures the receipt block prints: per-line `(qty, name, amount)`,
then subtotal, shipping, amount (total) and post-deduction balance, all as
`static_cast<int>` truncations. -/
structure Receipt where
  lines : List (ℤ × String × ℤ)
  subtotal : ℤ
  shipping : ℤ
  amount : ℤ
  balance : ℤ
deriving DecidableEq

/-- `nameToCount[name] = qty`: overwrite-or-insert into the name map. -/
def ncInsert : List (String × ℤ) → String → ℤ → List (String × ℤ)
  | [], n, q => [(n, q)]
  | e :: rest, n, q => if e.1 = n then (n, q) :: rest else e :: ncInsert rest n q

/-- `nameToCount.at(name)` (every name looked up was inserted first, so the
missing-key exception cannot fire; `0` stands for that dead branch). -/
def ncLookup : List (String × ℤ) → String → ℤ
  | [], _ => 0
  | e :: rest, n => if e.1 = n then e.2 else ncLookup rest n

/-- First loop of `ShippingService::ship`: one `count x name` line per
distinct name, at its first occurrence in the unit list (`printed` is the
`std::set` of names already emitted). -/
def summaryPass (nc : List (String × ℤ)) : List String → List String → List (ℤ × String)
  | [], _ => []
  | n :: rest, printed =>
    if n ∈ printed then summaryPass nc rest printed
    else (ncLookup nc n, n) :: summaryPass nc rest (n :: printed)

/-- What `ShippingService::ship` prints: the grouped summary, one per-unit
weight line (in grams, `%.0f`), the accumulated total weight and the total
line in kilograms at one decimal (`%.1f`, recorded as tenths). -/
structure ShipOutput where
  summary : List (ℤ × String)
  unitGrams : List ℤ
  totalWeight : ℚ
  totalTenths : ℤ
deriving DecidableEq

/-- `ShippingService::ship(items, nameToCount)`: returns early on an empty
unit list, otherwise produces the shipment notice.  Units are `(name,
weight)` pairs, the data `ship` reads off each `ShippableProduct*`. -/
def shipRun (units : List (String × ℚ)) (nc : List (String × ℤ)) : Option ShipOutput :=
  if units = [] then none
  else
    some
      { summary := summaryPass nc (units.map fun u => u.1) []
        unitGrams := units.map fun u => roundHalfEven (u.2 * 1000)
        totalWeight := units.foldl (fun acc u => acc + u.2) 0
        totalTenths := roundHalfEven ((units.foldl (fun acc u => acc + u.2) 0) * 10) }

/-- Validation-and-accumulation loop of `checkout`: walks the cart entries in
map order carrying `subtotal`, the expanded `shippables` vector (product keys,
one per physical unit) and `nameToCount`; stops at the first expired or
under-stocked line. -/
def validateLoop (st : Store) : Cart → ℚ → List Nat → List (String × ℤ) →
    Except CheckoutError (ℚ × List Nat × List (String × ℤ))
  | [], sub, sh, nc => .ok (sub, sh, nc)
  | e :: rest, sub, sh, nc =>
    if (st e.1).expired then .error (.expiredProduct (st e.1).name)
    else if e.2 > (st e.1).quantity then .error (.insufficientStock (st e.1).name)
    else
      validateLoop st rest (sub + (st e.1).price * (e.2 : ℚ))
        (if (st e.1).isShippable then sh ++ List.replicate e.2.toNat e.1 else sh)
        (if (st e.1).isShippable then ncInsert nc (st e.1).name e.2 else nc)

/-- `totalWeight` accumulation over the shippables vector. -/
def weightFold (st : Store) (l : List Nat) : ℚ :=
  l.foldl (fun acc pid => acc + (st pid).getWeight) 0

/-- `shipping = std::ceil(totalWeight * 10) * 3`. -/
def shippingFee (w : ℚ) : ℚ := (⌈w * 10⌉ : ℚ) * 3

/-- Everything `checkout` leaves behind. -/
structure CheckoutResult where
  error : Option CheckoutError
  state : CheckoutState
  receipt : Option Receipt
  shipment : Option ShipOutput

/-- Pointwise stock reduction: the effect of `entry.first->reduceQuantity`
on the heap. -/
def storeReduce (st : Store) (pid : Nat) (amount : ℤ) : Store :=
  fun q => if q = pid then (st q).reduceQuantity amount else st q

/-- Commit branch of `checkout`, reached when every check passed: emit the
shipment notice (if any units), print the receipt (all figures truncated),
deduct the exact total, reduce each line's stock, clear the cart. -/
def commitResult (cs : CheckoutState) (sub : ℚ) (sh : List Nat)
    (nc : List (String × ℤ)) : CheckoutResult :=
  ⟨none,
   ⟨cs.cart.foldl (fun st e => storeReduce st e.1 e.2) cs.store,
    cs.customer.deductBalance (sub + shippingFee (weightFold cs.store sh)),
    []⟩,
   some ⟨cs.cart.map fun e =>
           (e.2, (cs.store e.1).name, truncQ ((cs.store e.1).price * (e.2 : ℚ))),
         truncQ sub,
         truncQ (shippingFee (weightFold cs.store sh)),
         truncQ (sub + shippingFee (weightFold cs.store sh)),
         truncQ (cs.customer.balance - (sub + shippingFee (weightFold cs.store sh)))⟩,
   if sh = [] then none
   else shipRun (sh.map fun pid => ((cs.store pid).name, (cs.store pid).getWeight)) nc⟩

/-- `checkout(customer, cart)`: empty-cart check, per-line validation loop,
weight/fee computation, balance check, then commit; every failing branch
returns with the state exactly as it was. -/
def checkout (cs : CheckoutState) : CheckoutResult :=
  if cs.cart = [] then ⟨some .emptyCart, cs, none, none⟩
  else
    match validateLoop cs.store cs.cart 0 [] [] with
    | .error e => ⟨some e, cs, none, none⟩
    | .ok (sub, sh, nc) =>
      if cs.customer.balance < sub + shippingFee (weightFold cs.store sh) then
        ⟨some .insufficientBalance, cs, none, none⟩
      else commitResult cs sub sh nc

/-- Closed form of the subtotal accumulated by the validation loop. -/
def subtotalOf (st : Store) (cart : Cart) : ℚ :=
  (cart.map fun e => (st e.1).price * (e.2 : ℚ)).sum

/-- Closed form of the shippables vector: each shippable line of quantity `q`
contributes `q` copies of its product key. -/
def expandShippables (st : Store) : Cart → List Nat
  | [] => []
  | e :: rest =>
    (if (st e.1).isShippable then List.replicate e.2.toNat e.1 else [])
      ++ expandShippables st rest

/-- Closed form of the total weight: sum of the per-unit weights. -/
def totalWeightOf (st : Store) (l : List Nat) : ℚ :=
  (l.map fun pid => (st pid).getWeight).sum

/-- First failure produced by a single pass over the cart entries that checks,
for each entry in order, expiry and then stock. -/
def firstLineError (st : Store) : Cart → Option CheckoutError
  | [] => none
  | e :: rest =>
    if (st e.1).expired then some (.expiredProduct (st e.1).name)
    else if e.2 > (st e.1).quantity then some (.insufficientStock (st e.1).name)
    else firstLineError st rest

/-- Follows the claim's words (two separate ordered passes): first an expiry
check over every line, then a stock check over every line.  Used only to
compare against what the code does. -/
def twoPassCheckError (st : Store) (cart : Cart) : Option CheckoutError :=
  if cart = [] then some .emptyCart
  else
    match cart.find? fun e => (st e.1).expired with
    | some e => some (.expiredProduct (st e.1).name)
    | none =>
      match cart.find? fun e => decide (e.2 > (st e.1).quantity) with
      | some e => some (.insufficientStock (st e.1).name)
      | none => none

/-! ## Helper lemmas -/

theorem foldl_add_sum {α : Type} (f : α → ℚ) (l : List α) (a : ℚ) :
    l.foldl (fun acc x => acc + f x) a = a + (l.map f).sum := by
  induction l generalizing a with
  | nil => simp
  | cons x xs ih => simp [ih, add_assoc]

theorem validateLoop_ok_acc (st : Store) (cart : Cart) :
    ∀ (sub : ℚ) (sh : List Nat) (nc : List (String × ℤ)) (sub' : ℚ)
      (sh' : List Nat) (nc' : List (String × ℤ)),
      validateLoop st cart sub sh nc = .ok (sub', sh', nc') →
      sub' = sub + subtotalOf st cart ∧ sh' = sh ++ expandShippables st cart := by
  induction cart with
  | nil =>
    intro sub sh nc sub' sh' nc' h
    simp [validateLoop] at h
    simp [subtotalOf, expandShippables, h.1.symm, h.2.1.symm]
  | cons e rest ih =>
    intro sub sh nc sub' sh' nc' h
    rw [validateLoop] at h
    split at h
    · exact absurd h (by simp)
    split at h
    · exact absurd h (by simp)
    obtain ⟨h1, h2⟩ := ih _ _ _ _ _ _ h
    constructor
    · rw [h1, subtotalOf, subtotalOf]
      simp [add_assoc]
    · rw [h2, expandShippables]
      split
      · simp
      · simp

theorem validateLoop_err (st : Store) (cart : Cart) :
    ∀ (sub : ℚ) (sh : List Nat) (nc : List (String × ℤ)) (e : CheckoutError),
      validateLoop st cart sub sh nc = .error e ↔ firstLineError st cart = some e := by
  induction cart with
  | nil => intro sub sh nc e; simp [validateLoop, firstLineError]
  | cons x rest ih =>
    intro sub sh nc e
    rw [validateLoop, firstLineError]
    split
    · simp
    split
    · simp
    · exact ih _ _ _ _

theorem validateLoop_ok_fle (st : Store) (cart : Cart) :
    ∀ (sub : ℚ) (sh : List Nat) (nc : List (String × ℤ)) r,
      validateLoop st cart sub sh nc = .ok r → firstLineError st cart = none := by
  induction cart with
  | nil => intro sub sh nc r _; rfl
  | cons x rest ih =>
    intro sub sh nc r h
    rw [validateLoop] at h
    rw [firstLineError]
    split at h
    · exact absurd h (by simp)
    rename_i hexp
    split at h
    · exact absurd h (by simp)
    rename_i hstock
    rw [if_neg hexp, if_neg hstock]
    exact ih _ _ _ _ h

theorem mapInsertAdd_keys_mem (cart : Cart) (pid : Nat) (q : ℤ) :
    ∀ x ∈ mapInsertAdd cart pid q, x.1 = pid ∨ x.1 ∈ cart.map Prod.fst := by
  induction cart with
  | nil =>
    intro x hx
    simp [mapInsertAdd] at hx
    simp [hx]
  | cons e rest ih =>
    obtain ⟨k, v⟩ := e
    intro x hx
    rw [mapInsertAdd] at hx
    split at hx
    · rcases List.mem_cons.mp hx with rfl | hx'
      · exact .inl rfl
      · simp only [List.map_cons, List.mem_cons]
        rcases List.mem_cons.mp hx' with rfl | hx''
        · exact .inr (.inl rfl)
        · exact .inr (.inr (List.mem_map_of_mem Prod.fst hx''))
    split at hx
    · rename_i hpk
      rcases List.mem_cons.mp hx with rfl | hx'
      · exact .inl hpk.symm
      · exact .inr (by simp [List.mem_map_of_mem Prod.fst hx'])
    · rcases List.mem_cons.mp hx with rfl | hx'
      · simp
      · rcases ih x hx' with h | h
        · exact .inl h
        · exact .inr (by simp [h])

theorem mapInsertAdd_pairwise (cart : Cart) (pid : Nat) (q : ℤ)
    (h : cart.Pairwise fun a b => a.1 < b.1) :
    (mapInsertAdd cart pid q).Pairwise fun a b => a.1 < b.1 := by
  induction cart with
  | nil => simp [mapInsertAdd]
  | cons e rest ih =>
    obtain ⟨k, v⟩ := e
    rw [List.pairwise_cons] at h
    obtain ⟨hk, hrest⟩ := h
    rw [mapInsertAdd]
    split
    · rename_i hlt
      refine List.Pairwise.cons ?_ (List.Pairwise.cons hk hrest)
      intro y hy
      rcases List.mem_cons.mp hy with rfl | hy'
      · exact hlt
      · exact lt_trans hlt (hk y hy')
    split
    · exact List.Pairwise.cons hk hrest
    · rename_i hlt heq
      refine List.Pairwise.cons ?_ (ih hrest)
      intro y hy
      rcases mapInsertAdd_keys_mem rest pid q y hy with h1 | h1
      · have : k < pid := by omega
        rw [h1]
        exact this
      · obtain ⟨z, hz, hz1⟩ := List.mem_map.mp h1
        rw [← hz1]
        exact hk z hz

theorem cartCount_zero_of_not_mem (cart : Cart) (pid : Nat)
    (h : pid ∉ cart.map Prod.fst) : cartCount cart pid = 0 := by
  induction cart with
  | nil => rfl
  | cons e rest ih =>
    rw [List.map_cons, List.mem_cons] at h
    push_neg at h
    rw [cartCount, if_neg (Ne.symm h.1)]
    exact ih h.2

theorem cartCount_mapInsertAdd_self (cart : Cart) (pid : Nat) (q : ℤ)
    (hs : cart.Pairwise fun a b => a.1 < b.1) :
    cartCount (mapInsertAdd cart pid q) pid = cartCount cart pid + q := by
  induction cart with
  | nil => simp [mapInsertAdd, cartCount]
  | cons e rest ih =>
    obtain ⟨k, v⟩ := e
    rw [List.pairwise_cons] at hs
    obtain ⟨hk, hrest⟩ := hs
    rw [mapInsertAdd]
    split
    · rename_i hlt
      rw [cartCount, if_pos rfl]
      have h0 : cartCount ((k, v) :: rest) pid = 0 := by
        apply cartCount_zero_of_not_mem
        intro hmem
        rw [List.map_cons, List.mem_cons] at hmem
        rcases hmem with rfl | hmem'
        · omega
        · obtain ⟨z, hz, hz1⟩ := List.mem_map.mp hmem'
          have := hk z hz
          omega
      rw [h0]
      omega
    split
    · rename_i hpk
      rw [cartCount, cartCount, if_pos hpk.symm, if_pos hpk.symm]
    · rename_i hlt hpk
      rw [cartCount, cartCount, if_neg (by omega), if_neg (by omega)]
      exact ih hrest

theorem cartCount_mapInsertAdd_ne (cart : Cart) (pid pid' : Nat) (q : ℤ)
    (hne : pid' ≠ pid) :
    cartCount (mapInsertAdd cart pid q) pid' = cartCount cart pid' := by
  induction cart with
  | nil => simp [mapInsertAdd, cartCount, Ne.symm hne]
  | cons e rest ih =>
    obtain ⟨k, v⟩ := e
    rw [mapInsertAdd]
    split
    · simp [cartCount, Ne.symm hne]
    split
    · rename_i hpk
      have hkp : k ≠ pid' := by omega
      simp [cartCount, hkp]
    · simp [cartCount, ih]

theorem foldl_storeReduce_not_mem (cart : Cart) (st : Store) (pid : Nat)
    (h : pid ∉ cart.map Prod.fst) :
    cart.foldl (fun s e => storeReduce s e.1 e.2) st pid = st pid := by
  induction cart generalizing st with
  | nil => rfl
  | cons e rest ih =>
    rw [List.map_cons, List.mem_cons] at h
    push_neg at h
    rw [List.foldl_cons, ih _ h.2, storeReduce, if_neg h.1]

theorem foldl_storeReduce_mem (cart : Cart) (st : Store) (pid : Nat) (q : ℤ)
    (hnd : (cart.map Prod.fst).Nodup) (hmem : (pid, q) ∈ cart) :
    cart.foldl (fun s e => storeReduce s e.1 e.2) st pid
      = (st pid).reduceQuantity q := by
  induction cart generalizing st with
  | nil => cases hmem
  | cons e rest ih =>
    rw [List.foldl_cons]
    rw [List.map_cons, List.nodup_cons] at hnd
    rcases List.mem_cons.mp hmem with rfl | hmem'
    · rw [foldl_storeReduce_not_mem rest _ pid hnd.1, storeReduce, if_pos rfl]
    · have hne : pid ≠ e.1 := by
        intro hcontra
        exact hnd.1 (hcontra ▸ List.mem_map_of_mem Prod.fst hmem')
      rw [ih _ hnd.2 hmem', storeReduce, if_neg hne]

/-! ## Shape lemmas for `checkout` -/

theorem checkout_empty (cs : CheckoutState) (h : cs.cart = []) :
    checkout cs = ⟨some .emptyCart, cs, none, none⟩ := by
  rw [checkout, if_pos h]

theorem checkout_valfail (cs : CheckoutState) (e : CheckoutError)
    (hne : ¬cs.cart = [])
    (hv : validateLoop cs.store cs.cart 0 [] [] = .error e) :
    checkout cs = ⟨some e, cs, none, none⟩ := by
  rw [checkout, if_neg hne, hv]

theorem checkout_balfail (cs : CheckoutState) (sub : ℚ) (sh : List Nat)
    (nc : List (String × ℤ)) (hne : ¬cs.cart = [])
    (hv : validateLoop cs.store cs.cart 0 [] [] = .ok (sub, sh, nc))
    (hb : cs.customer.balance < sub + shippingFee (weightFold cs.store sh)) :
    checkout cs = ⟨some .insufficientBalance, cs, none, none⟩ := by
  rw [checkout, if_neg hne, hv]
  simp only [if_pos hb]

theorem checkout_ok (cs : CheckoutState) (sub : ℚ) (sh : List Nat)
    (nc : List (String × ℤ)) (hne : ¬cs.cart = [])
    (hv : validateLoop cs.store cs.cart 0 [] [] = .ok (sub, sh, nc))
    (hb : ¬cs.customer.balance < sub + shippingFee (weightFold cs.store sh)) :
    checkout cs = commitResult cs sub sh nc := by
  rw [checkout, if_neg hne, hv]
  simp only [if_neg hb]

theorem checkout_cases (cs : CheckoutState) :
    (cs.cart = [] ∧ checkout cs = ⟨some .emptyCart, cs, none, none⟩)
    ∨ (∃ e, ¬cs.cart = [] ∧ validateLoop cs.store cs.cart 0 [] [] = .error e
        ∧ checkout cs = ⟨some e, cs, none, none⟩)
    ∨ (∃ sub sh nc, ¬cs.cart = []
        ∧ validateLoop cs.store cs.cart 0 [] [] = .ok (sub, sh, nc)
        ∧ ((cs.customer.balance < sub + shippingFee (weightFold cs.store sh)
              ∧ checkout cs = ⟨some .insufficientBalance, cs, none, none⟩)
           ∨ (¬cs.customer.balance < sub + shippingFee (weightFold cs.store sh)
              ∧ checkout cs = commitResult cs sub sh nc))) := by
  by_cases h1 : cs.cart = []
  · exact .inl ⟨h1, checkout_empty cs h1⟩
  rcases hv : validateLoop cs.store cs.cart 0 [] [] with e | ⟨sub, sh, nc⟩
  · exact .inr (.inl ⟨e, h1, rfl, checkout_valfail cs e h1 hv⟩)
  · by_cases hb : cs.customer.balance < sub + shippingFee (weightFold cs.store sh)
    · exact .inr (.inr ⟨sub, sh, nc, h1, rfl,
        Or.inl ⟨hb, checkout_balfail cs sub sh nc h1 hv hb⟩⟩)
    · exact .inr (.inr ⟨sub, sh, nc, h1, rfl,
        Or.inr ⟨hb, checkout_ok cs sub sh nc h1 hv hb⟩⟩)

/-! ## Concrete fixtures (used by witnesses and counterexamples) -/

/-- Heap with the two scenario-A products: Cheese (price 100, stock 5, not
expired, shippable at 0.4 kg) at key 1 and ScratchCard (price 50, stock 20,
not shippable) at key 2. -/
def stA : Store := fun pid =>
  if pid = 1 then ⟨"Cheese", 100, 5, false, some (2 / 5)⟩
  else if pid = 2 then ⟨"ScratchCard", 50, 20, false, none⟩
  else ⟨"Unused", 0, 0, false, none⟩

/-- Scenario A: Ali with balance 1000, cart Cheese×2 and ScratchCard×1. -/
def csA : CheckoutState := ⟨stA, ⟨"Ali", 1000⟩, [(1, 2), (2, 1)]⟩

/-- Scenario-A checkout with an empty cart. -/
def csEmpty : CheckoutState := ⟨stA, ⟨"Ali", 1000⟩, []⟩

/-- Cart with only the non-shippable ScratchCard. -/
def csB : CheckoutState := ⟨stA, ⟨"Ali", 1000⟩, [(2, 1)]⟩

/-- Heap where product "A" (key 1) is in-date but out of stock and product
"B" (key 2) is expired with plenty of stock. -/
def stC3 : Store := fun pid =>
  if pid = 1 then ⟨"A", 1, 0, false, none⟩
  else if pid = 2 then ⟨"B", 1, 5, true, none⟩
  else ⟨"Unused", 0, 0, false, none⟩

/-- Cart holding one unit of each of the two products of `stC3`. -/
def csC3 : CheckoutState := ⟨stC3, ⟨"Eve", 100⟩, [(1, 1), (2, 1)]⟩

/-- Heap whose every key is an expired product with stock 5. -/
def stC4 : Store := fun _ => ⟨"P", 1, 5, true, none⟩

/-- Heap whose every key is a plain in-date product with stock 5. -/
def stC7 : Store := fun _ => ⟨"P", 1, 5, false, none⟩

/-- Heap with product "C" at key 3 and product "E" at key 5 (so the map
orders "C" before "E" whatever the insertion order). -/
def stC6 : Store := fun pid =>
  if pid = 3 then ⟨"C", 1, 9, false, none⟩
  else if pid = 5 then ⟨"E", 1, 9, false, none⟩
  else ⟨"Unused", 0, 0, false, none⟩

/-- Heap selling the "Widget" at the non-integer price 33.33. -/
def stC8 : Store := fun _ => ⟨"Widget", 3333 / 100, 5, false, none⟩

/-- Three Widgets in the cart: line amount 99.99. -/
def csC8 : CheckoutState := ⟨stC8, ⟨"Bob", 1000⟩, [(1, 3)]⟩

/-- The receipt checkout prints for `csC8`. -/
def rC8 : Receipt := ⟨[(3, "Widget", 99)], 99, 0, 99, 900⟩

/-- Scenario A with the fractional starting balance 1000.5. -/
def csC10 : CheckoutState := ⟨stA, ⟨"Ali", 2001 / 2⟩, [(1, 2), (2, 1)]⟩

/-- The receipt checkout prints for `csA`. -/
def rA : Receipt := ⟨[(2, "Cheese", 200), (1, "ScratchCard", 50)], 250, 24, 274, 726⟩

/-! ## Claim theorems -/

theorem checkout_fail_state (cs : CheckoutState)
    (h : (checkout cs).error ≠ none) : (checkout cs).state = cs := by
  rcases checkout_cases cs with ⟨_, hc⟩ | ⟨e, _, _, hc⟩
    | ⟨sub, sh, nc, _, _, ⟨_, hc⟩ | ⟨_, hc⟩⟩
  · rw [hc]
  · rw [hc]
  · rw [hc]
  · rw [hc] at h
    exact absurd rfl h

/-- C1: if `checkout` fails for any reason (empty cart, expired product,
insufficient stock or insufficient balance), then every product's stock, the
customer's balance and the cart's contents are left exactly as they were
before the call (the returned state is the input state). -/
theorem checkout_failure_atomic (cs : CheckoutState) (e : CheckoutError)
    (h : (checkout cs).error = some e) : (checkout cs).state = cs :=
  checkout_fail_state cs (by rw [h]; exact Option.some_ne_none e)

/-- Witness for C1: checking out the empty cart fails with `EmptyCart` and
the state is returned untouched. -/
theorem checkout_failure_atomic_witness :
    (checkout csEmpty).error = some CheckoutError.emptyCart
      ∧ (checkout csEmpty).state = csEmpty :=
  ⟨by with_unfolding_all rfl,
   checkout_failure_atomic csEmpty CheckoutError.emptyCart (by with_unfolding_all rfl)⟩

/-- C2: on a cart that passes validation, the shippables vector is exactly
each shippable line expanded into `quantity` copies of its product key, the
total weight is the sum of the per-unit weights, the fee is
`ceil(totalWeight * 10) * 3`, and with no shippable units the weight and fee
are `0` and no shipment notice is produced. -/
theorem shipping_aggregation (cs : CheckoutState) (sub : ℚ) (sh : List Nat)
    (nc : List (String × ℤ))
    (hv : validateLoop cs.store cs.cart 0 [] [] = .ok (sub, sh, nc)) :
    sh = expandShippables cs.store cs.cart
    ∧ weightFold cs.store sh = totalWeightOf cs.store sh
    ∧ shippingFee (weightFold cs.store sh) = (⌈totalWeightOf cs.store sh * 10⌉ : ℚ) * 3
    ∧ (sh = [] → weightFold cs.store sh = 0
        ∧ shippingFee (weightFold cs.store sh) = 0
        ∧ (checkout cs).shipment = none) := by
  have hsh := (validateLoop_ok_acc cs.store cs.cart 0 [] [] sub sh nc hv).2
  have hw : weightFold cs.store sh = totalWeightOf cs.store sh := by
    rw [weightFold, foldl_add_sum, totalWeightOf, zero_add]
  refine ⟨by simpa using hsh, hw, by rw [hw, shippingFee], ?_⟩
  intro hnil
  refine ⟨by simp [hnil, weightFold], by simp [hnil, weightFold, shippingFee], ?_⟩
  rcases checkout_cases cs with ⟨_, hc⟩ | ⟨e, _, _, hc⟩
    | ⟨sub', sh', nc', _, hv', ⟨_, hc⟩ | ⟨_, hc⟩⟩
  · rw [hc]
  · rw [hc]
  · rw [hc]
  · rw [hv] at hv'
    simp only [Except.ok.injEq, Prod.mk.injEq] at hv'
    obtain ⟨-, hsh', -⟩ := hv'
    rw [hc]
    simp [commitResult, ← hsh', hnil]

/-- Counterexample to C3: with entry "A" (in-date, stock 0) ordered before
entry "B" (expired), the claimed two-pass order would report
`ExpiredProduct("B")`, but the code's single fused pass reports
`InsufficientStock("A")`. -/
theorem checkout_check_order_counterexample :
    twoPassCheckError csC3.store csC3.cart = some (CheckoutError.expiredProduct "B")
    ∧ (checkout csC3).error = some (CheckoutError.insufficientStock "A")
    ∧ (checkout csC3).error ≠ twoPassCheckError csC3.store csC3.cart := by
  with_unfolding_all decide

/-- C3 (amended): `checkout` checks the empty cart first, then walks the
entries in the cart's (key-sorted) order making, for each entry, an expiry
check and then a stock check before moving to the next entry, short-circuits
at the first failure, and only then checks the balance; no failing run
mutates the state. -/
theorem checkout_check_order (cs : CheckoutState) :
    ((checkout cs).error
      = if cs.cart = [] then some CheckoutError.emptyCart
        else
          match firstLineError cs.store cs.cart with
          | some e => some e
          | none =>
            if cs.customer.balance < subtotalOf cs.store cs.cart
                + shippingFee (totalWeightOf cs.store (expandShippables cs.store cs.cart))
            then some CheckoutError.insufficientBalance
            else none)
    ∧ ((checkout cs).error ≠ none → (checkout cs).state = cs) := by
  refine ⟨?_, checkout_fail_state cs⟩
  rcases checkout_cases cs with ⟨hnil, hc⟩ | ⟨e, hne, hv, hc⟩
    | ⟨sub, sh, nc, hne, hv, hrest⟩
  · rw [hc, if_pos hnil]
  · rw [hc, if_neg hne, (validateLoop_err cs.store cs.cart 0 [] [] e).mp hv]
  · have hfle := validateLoop_ok_fle cs.store cs.cart 0 [] [] _ hv
    obtain ⟨hsub, hsh⟩ := validateLoop_ok_acc cs.store cs.cart 0 [] [] sub sh nc hv
    have hsub' : sub = subtotalOf cs.store cs.cart := by rw [hsub, zero_add]
    have hw : weightFold cs.store sh
        = totalWeightOf cs.store (expandShippables cs.store cs.cart) := by
      rw [weightFold, foldl_add_sum, zero_add, hsh]
      simp [totalWeightOf]
    rw [if_neg hne, hfle]
    rcases hrest with ⟨hb, hc⟩ | ⟨hb, hc⟩
    · rw [hsub', hw] at hb
      rw [hc]
      simp [hb]
    · rw [hsub', hw] at hb
      rw [hc]
      simp [commitResult, hb]

/-- Counterexample to C4: for an expired product with stock 5, `add` with
quantity 6 > 5 fails with `ExpiredProduct`, not with `InsufficientStock` as
the claim's universal clause demands. -/
theorem cartAdd_overstock_counterexample :
    (cartAdd stC4 [] 1 6).1 = some (AddError.expiredProduct "P")
    ∧ (6 : ℤ) > (stC4 1).quantity
    ∧ (cartAdd stC4 [] 1 6).1 ≠ some (AddError.insufficientStock "P") := by
  with_unfolding_all decide

/-- C4 (amended): `Cart.add(p, q)` applies its checks in order — it fails
with `InvalidQuantity` when `q ≤ 0`, otherwise with `ExpiredProduct` when
`p` is expired, otherwise with `InsufficientStock` when `q` exceeds `p`'s
current stock (so for non-expired `p` with stock `s`, `q > s` fails with
`InsufficientStock`); every failure leaves the heap and the cart unchanged,
and success accumulates `q` into the entry for `p` (creating it if absent),
leaves every other entry alone and does not touch `p`'s stock. -/
theorem cartAdd_spec (st : Store) (cart : Cart) (pid : Nat) (q : ℤ)
    (hs : cart.Pairwise fun a b => a.1 < b.1) :
    (q ≤ 0 → cartAdd st cart pid q = (some AddError.invalidQuantity, st, cart))
    ∧ (0 < q → (st pid).expired = true →
        cartAdd st cart pid q = (some (AddError.expiredProduct (st pid).name), st, cart))
    ∧ (0 < q → (st pid).expired = false → (st pid).quantity < q →
        cartAdd st cart pid q = (some (AddError.insufficientStock (st pid).name), st, cart))
    ∧ (0 < q → (st pid).expired = false → q ≤ (st pid).quantity →
        cartAdd st cart pid q = (none, st, mapInsertAdd cart pid q)
        ∧ cartCount (mapInsertAdd cart pid q) pid = cartCount cart pid + q
        ∧ ∀ pid', pid' ≠ pid →
            cartCount (mapInsertAdd cart pid q) pid' = cartCount cart pid') := by
  refine ⟨?_, ?_, ?_, ?_⟩
  · intro h1
    rw [cartAdd, if_pos h1]
  · intro h1 h2
    rw [cartAdd, if_neg (by omega), if_pos h2]
  · intro h1 h2 h3
    rw [cartAdd, if_neg (by omega), if_neg (by simp [h2]), if_pos (by omega)]
  · intro h1 h2 h3
    refine ⟨?_, cartCount_mapInsertAdd_self cart pid q hs,
      fun pid' hp => cartCount_mapInsertAdd_ne cart pid pid' q hp⟩
    rw [cartAdd, if_neg (by omega), if_neg (by simp [h2]), if_neg (by omega)]

/-- Witness for C4 on the scenario-A heap: quantity 0 is rejected, 6 > stock
5 is rejected, and adding 2 Cheese succeeds creating the entry. -/
theorem cartAdd_spec_witness :
    cartAdd stA [] 1 0 = (some AddError.invalidQuantity, stA, [])
    ∧ cartAdd stA [] 1 6 = (some (AddError.insufficientStock "Cheese"), stA, [])
    ∧ cartAdd stA [] 1 2 = (none, stA, [(1, 2)])
    ∧ cartCount (mapInsertAdd [] 1 2) 1 = cartCount [] 1 + 2 := by
  have h0 := cartAdd_spec stA [] 1 0 List.Pairwise.nil
  have h6 := cartAdd_spec stA [] 1 6 List.Pairwise.nil
  have h2 := cartAdd_spec stA [] 1 2 List.Pairwise.nil
  refine ⟨h0.1 le_rfl, ?_, ?_, ?_⟩
  · exact h6.2.2.1 (by norm_num) (by with_unfolding_all rfl) (by with_unfolding_all decide)
  · exact (h2.2.2.2 (by norm_num) (by with_unfolding_all rfl) (by with_unfolding_all decide)).1
  · exact (h2.2.2.2 (by norm_num) (by with_unfolding_all rfl) (by with_unfolding_all decide)).2.1

/-- Witness for C2 on a cart holding only the non-shippable ScratchCard:
validation succeeds with no shippable units, weight and fee are `0` and no
shipment notice is produced. -/
theorem shipping_aggregation_witness :
    validateLoop csB.store csB.cart 0 [] [] = .ok (50, [], [])
    ∧ weightFold csB.store [] = 0
    ∧ shippingFee (weightFold csB.store []) = 0
    ∧ (checkout csB).shipment = none := by
  have hv : validateLoop csB.store csB.cart 0 [] [] = .ok (50, [], []) := by
    with_unfolding_all rfl
  have h := shipping_aggregation csB 50 [] [] hv
  exact ⟨hv, (h.2.2.2 rfl).1, (h.2.2.2 rfl).2.1, (h.2.2.2 rfl).2.2⟩

/-- Witness for C3 at `csC3`: the characterization evaluates to
`InsufficientStock("A")` and the failing run leaves the state unchanged. -/
theorem checkout_check_order_witness :
    (checkout csC3).error
      = (if csC3.cart = [] then some CheckoutError.emptyCart
         else
           match firstLineError csC3.store csC3.cart with
           | some e => some e
           | none =>
             if csC3.customer.balance < subtotalOf csC3.store csC3.cart
                 + shippingFee (totalWeightOf csC3.store (expandShippables csC3.store csC3.cart))
             then some CheckoutError.insufficientBalance
             else none)
    ∧ (checkout csC3).state = csC3 := by
  have h := checkout_check_order csC3
  exact ⟨h.1, h.2 (by with_unfolding_all decide)⟩

/-- C5: when every validation and the balance check pass, checkout deducts
exactly `subtotal + shippingFee` from the customer's balance, reduces each
cart line's product stock by that line's requested quantity, and clears the
cart. -/
theorem checkout_success_commit (cs : CheckoutState)
    (hnd : (cs.cart.map Prod.fst).Nodup)
    (h : (checkout cs).error = none) :
    (checkout cs).state.customer.balance
      = cs.customer.balance
        - (subtotalOf cs.store cs.cart
            + shippingFee (totalWeightOf cs.store (expandShippables cs.store cs.cart)))
    ∧ (∀ pid q, (pid, q) ∈ cs.cart →
        ((checkout cs).state.store pid).quantity = (cs.store pid).quantity - q)
    ∧ (checkout cs).state.cart = [] := by
  rcases checkout_cases cs with ⟨_, hc⟩ | ⟨e, _, _, hc⟩
    | ⟨sub, sh, nc, hne, hv, ⟨_, hc⟩ | ⟨hb, hc⟩⟩
  · rw [hc] at h; cases h
  · rw [hc] at h; cases h
  · rw [hc] at h; cases h
  · obtain ⟨hsub, hsh⟩ := validateLoop_ok_acc cs.store cs.cart 0 [] [] sub sh nc hv
    have hsub' : sub = subtotalOf cs.store cs.cart := by rw [hsub, zero_add]
    have hw : weightFold cs.store sh
        = totalWeightOf cs.store (expandShippables cs.store cs.cart) := by
      rw [weightFold, foldl_add_sum, zero_add, hsh]
      simp [totalWeightOf]
    refine ⟨?_, ?_, by rw [hc]; rfl⟩
    · rw [hc]
      simp [commitResult, Customer.deductBalance, hsub', hw]
    · intro pid q hmem
      rw [hc]
      simp only [commitResult]
      rw [foldl_storeReduce_mem cs.cart cs.store pid q hnd hmem]
      rfl

/-- Witness for C5: scenario A.  Cheese×2 at 100 plus ScratchCard×1 at 50
gives subtotal 250, weight 0.8 kg, fee 24, total 274; the balance drops from
1000 to 726, Cheese stock from 5 to 3, and the cart is cleared. -/
theorem checkout_success_commit_witness :
    (checkout csA).error = none
    ∧ (checkout csA).state.customer.balance = 726
    ∧ ((checkout csA).state.store 1).quantity = 3
    ∧ (checkout csA).state.cart = [] := by
  have herr : (checkout csA).error = none := by with_unfolding_all rfl
  have h := checkout_success_commit csA (by with_unfolding_all decide) herr
  refine ⟨herr, ?_, ?_, h.2.2⟩
  · rw [h.1]
    with_unfolding_all decide
  · rw [h.2.1 1 2 (by with_unfolding_all decide)]
    with_unfolding_all decide

/-- Counterexample to C6: product "E" (key 5) is added first and product
"C" (key 3) second, yet the cart stores — and the receipt lists — "C"
before "E": the order is the map's key (pointer) order, not insertion
order. -/
theorem receipt_order_counterexample :
    (cartAdd stC6 [] 5 1).1 = none
    ∧ (cartAdd stC6 [] 5 1).2.2 = [(5, 1)]
    ∧ (cartAdd stC6 [(5, 1)] 3 1).1 = none
    ∧ (cartAdd stC6 [(5, 1)] 3 1).2.2 = [(3, 1), (5, 1)]
    ∧ Option.map (fun r => r.lines.map fun l => l.2.1)
        (checkout ⟨stC6, ⟨"O", 100⟩, [(3, 1), (5, 1)]⟩).receipt = some ["C", "E"]
    ∧ ["C", "E"] ≠ ["E", "C"] := by
  with_unfolding_all decide

/-- C6 (amended): cart entries are kept sorted by product key (the
`std::map<Product*, int>` comparison order on pointers), `add` preserves
that order, and the receipt's line items follow exactly that entry order —
which need not be the order in which products were first added. -/
theorem cart_key_order (st : Store) (cart : Cart) (pid : Nat) (q : ℤ)
    (hs : cart.Pairwise fun a b => a.1 < b.1) :
    ((cartAdd st cart pid q).2.2).Pairwise (fun a b => a.1 < b.1)
    ∧ ∀ (cs : CheckoutState) (r : Receipt), (checkout cs).receipt = some r →
        r.lines = cs.cart.map fun e =>
          (e.2, (cs.store e.1).name, truncQ ((cs.store e.1).price * (e.2 : ℚ))) := by
  constructor
  · rw [cartAdd]
    split
    · exact hs
    split
    · exact hs
    split
    · exact hs
    · exact mapInsertAdd_pairwise cart pid q hs
  · intro cs r hr
    rcases checkout_cases cs with ⟨_, hc⟩ | ⟨e, _, _, hc⟩
      | ⟨sub, sh, nc, hne, hv, ⟨_, hc⟩ | ⟨hb, hc⟩⟩
    · rw [hc] at hr; cases hr
    · rw [hc] at hr; cases hr
    · rw [hc] at hr; cases hr
    · rw [hc] at hr
      simp only [commitResult, Option.some.injEq] at hr
      rw [← hr]

/-- Witness for C6 (amended): inserting key 4 between keys 3 and 5 keeps the
cart key-sorted, and the scenario-A receipt lines follow the cart's entry
order. -/
theorem cart_key_order_witness :
    ((cartAdd stC6 [(3, 1), (5, 1)] 4 2).2.2).Pairwise (fun a b => a.1 < b.1)
    ∧ (checkout csA).receipt = some rA
    ∧ rA.lines = csA.cart.map fun e =>
        (e.2, (csA.store e.1).name, truncQ ((csA.store e.1).price * (e.2 : ℚ))) := by
  have hr : (checkout csA).receipt = some rA := by with_unfolding_all decide
  have h := cart_key_order stC6 [(3, 1), (5, 1)] 4 2 (by decide)
  exact ⟨h.1, hr, h.2 csA rA hr⟩

/-- Counterexample to C7: with stock 5, two successful `add`s of 3 each
leave the entry at quantity 6, which exceeds the stock 5 that was current
at the last validation — the accumulated-quantity invariant fails because
`add` checks only the increment against stock. -/
theorem cart_invariant_counterexample :
    (cartAdd stC7 [] 1 3).1 = none
    ∧ (cartAdd stC7 [] 1 3).2.2 = [(1, 3)]
    ∧ (cartAdd stC7 [(1, 3)] 1 3).1 = none
    ∧ (cartAdd stC7 [(1, 3)] 1 3).2.2 = [(1, 6)]
    ∧ cartCount [(1, 6)] 1 = 6
    ∧ (stC7 1).quantity = 5
    ∧ ¬((6 : ℤ) ≤ 5) := by
  with_unfolding_all decide

/-- C7 (amended): each individual successful `Cart.add` validates only its
own increment — on success the added quantity is positive, the product is
not expired and the increment is at most the stock current at that
validation; the accumulated entry quantity may still exceed stock (it is
re-checked at checkout). -/
theorem cartAdd_validates_increment (st : Store) (cart : Cart) (pid : Nat)
    (q : ℤ) (h : (cartAdd st cart pid q).1 = none) :
    0 < q ∧ (st pid).expired = false ∧ q ≤ (st pid).quantity := by
  rw [cartAdd] at h
  split at h
  · cases h
  split at h
  · cases h
  split at h
  · cases h
  · rename_i h1 h2 h3
    exact ⟨by omega, by simpa using h2, by omega⟩

/-- Witness for C7 (amended): adding 3 of a stock-5 product succeeds and
the increment 3 is within stock 5. -/
theorem cartAdd_validates_increment_witness :
    (cartAdd stC7 [] 1 3).1 = none
    ∧ 0 < (3 : ℤ) ∧ (stC7 1).expired = false ∧ (3 : ℤ) ≤ (stC7 1).quantity := by
  have hnone : (cartAdd stC7 [] 1 3).1 = none := by with_unfolding_all rfl
  exact ⟨hnone, cartAdd_validates_increment stC7 [] 1 3 hnone⟩

/-- C8: every currency figure on the receipt — each line's amount
(price × quantity), subtotal, shipping, total and the post-checkout
balance — is the truncation toward zero of the exact computed amount. -/
theorem receipt_amounts_truncated (cs : CheckoutState) (r : Receipt)
    (h : (checkout cs).receipt = some r) :
    r.lines = cs.cart.map (fun e =>
      (e.2, (cs.store e.1).name, truncQ ((cs.store e.1).price * (e.2 : ℚ))))
    ∧ r.subtotal = truncQ (subtotalOf cs.store cs.cart)
    ∧ r.shipping = truncQ (shippingFee (totalWeightOf cs.store
        (expandShippables cs.store cs.cart)))
    ∧ r.amount = truncQ (subtotalOf cs.store cs.cart
        + shippingFee (totalWeightOf cs.store (expandShippables cs.store cs.cart)))
    ∧ r.balance = truncQ (cs.customer.balance
        - (subtotalOf cs.store cs.cart
            + shippingFee (totalWeightOf cs.store (expandShippables cs.store cs.cart)))) := by
  rcases checkout_cases cs with ⟨_, hc⟩ | ⟨e, _, _, hc⟩
    | ⟨sub, sh, nc, hne, hv, ⟨_, hc⟩ | ⟨hb, hc⟩⟩
  · rw [hc] at h; cases h
  · rw [hc] at h; cases h
  · rw [hc] at h; cases h
  · obtain ⟨hsub, hsh⟩ := validateLoop_ok_acc cs.store cs.cart 0 [] [] sub sh nc hv
    have hsub' : sub = subtotalOf cs.store cs.cart := by rw [hsub, zero_add]
    have hw : weightFold cs.store sh
        = totalWeightOf cs.store (expandShippables cs.store cs.cart) := by
      rw [weightFold, foldl_add_sum, zero_add, hsh]
      simp [totalWeightOf]
    rw [hc] at h
    simp only [commitResult, Option.some.injEq] at h
    rw [← h]
    exact ⟨rfl, by simp [hsub'], by simp [hw], by simp [hsub', hw], by simp [hsub', hw]⟩

/-- Witness for C8: three Widgets at price 33.33 give the exact line amount
99.99, reported as 99 (truncated, not rounded to 100). -/
theorem receipt_amounts_truncated_witness :
    (checkout csC8).receipt = some rC8
    ∧ rC8.lines = csC8.cart.map (fun e =>
        (e.2, (csC8.store e.1).name, truncQ ((csC8.store e.1).price * (e.2 : ℚ))))
    ∧ rC8.subtotal = truncQ (subtotalOf csC8.store csC8.cart)
    ∧ truncQ ((3333 / 100 : ℚ) * 3) = 99 := by
  have hr : (checkout csC8).receipt = some rC8 := by with_unfolding_all decide
  have h := receipt_amounts_truncated csC8 rC8 hr
  exact ⟨hr, h.1, h.2.1, by with_unfolding_all decide⟩

/-- Counterexample to C9: a unit of weight 0.0017 kg (1.7 g) is displayed
as 2 g — `%.0f` rounds to nearest — while truncation to whole grams would
give 1 g. -/
theorem ship_display_counterexample :
    Option.map ShipOutput.unitGrams (shipRun [("X", 17 / 10000)] [("X", 1)])
      = some [2]
    ∧ truncQ ((17 / 10000 : ℚ) * 1000) = 1
    ∧ (2 : ℤ) ≠ 1 := by
  with_unfolding_all decide

/-- C9 (amended): each displayed per-unit weight is `weight × 1000` rounded
to the nearest whole gram (ties to even, the `%.0f` behaviour — not
truncated), and the displayed total package weight is the sum of the unit
weights in kilograms shown to one decimal place. -/
theorem ship_manifest_display (units : List (String × ℚ)) (nc : List (String × ℤ))
    (out : ShipOutput) (h : shipRun units nc = some out) :
    out.unitGrams = units.map (fun u => roundHalfEven (u.2 * 1000))
    ∧ out.totalWeight = (units.map fun u => u.2).sum
    ∧ out.totalTenths = roundHalfEven ((units.map fun u => u.2).sum * 10) := by
  rw [shipRun] at h
  split at h
  · cases h
  · simp only [Option.some.injEq] at h
    have hfold : units.foldl (fun acc u => acc + u.2) 0 = (units.map fun u => u.2).sum := by
      rw [foldl_add_sum, zero_add]
    rw [← h]
    exact ⟨rfl, hfold, by simp [hfold]⟩

/-- Witness for C9 (amended): two 0.4 kg Cheese units display as 400 g each
with a total of 0.8 kg. -/
theorem ship_manifest_display_witness :
    shipRun [("Cheese", 2 / 5), ("Cheese", 2 / 5)] [("Cheese", 2)]
      = some ⟨[(2, "Cheese")], [400, 400], 4 / 5, 8⟩
    ∧ [(400 : ℤ), 400] = [("Cheese", (2 : ℚ) / 5), ("Cheese", 2 / 5)].map
        (fun u => roundHalfEven (u.2 * 1000)) := by
  have hr : shipRun [("Cheese", 2 / 5), ("Cheese", 2 / 5)] [("Cheese", 2)]
      = some ⟨[(2, "Cheese")], [400, 400], 4 / 5, 8⟩ := by
    with_unfolding_all decide
  have h := ship_manifest_display [("Cheese", 2 / 5), ("Cheese", 2 / 5)]
    [("Cheese", 2)] ⟨[(2, "Cheese")], [400, 400], 4 / 5, 8⟩ hr
  exact ⟨hr, h.1⟩

/-- C10: on a successful checkout the amount deducted from the stored
balance is the exact (possibly fractional) total `subtotal + shippingFee`;
truncation applies only to the reported figure, which equals the truncation
of the stored post-checkout balance. -/
theorem balance_deducted_exact (cs : CheckoutState)
    (h : (checkout cs).error = none) :
    (checkout cs).state.customer.balance
      = cs.customer.balance
        - (subtotalOf cs.store cs.cart
            + shippingFee (totalWeightOf cs.store (expandShippables cs.store cs.cart)))
    ∧ ∀ r, (checkout cs).receipt = some r →
        r.balance = truncQ ((checkout cs).state.customer.balance) := by
  rcases checkout_cases cs with ⟨_, hc⟩ | ⟨e, _, _, hc⟩
    | ⟨sub, sh, nc, hne, hv, ⟨_, hc⟩ | ⟨hb, hc⟩⟩
  · rw [hc] at h; cases h
  · rw [hc] at h; cases h
  · rw [hc] at h; cases h
  · obtain ⟨hsub, hsh⟩ := validateLoop_ok_acc cs.store cs.cart 0 [] [] sub sh nc hv
    have hsub' : sub = subtotalOf cs.store cs.cart := by rw [hsub, zero_add]
    have hw : weightFold cs.store sh
        = totalWeightOf cs.store (expandShippables cs.store cs.cart) := by
      rw [weightFold, foldl_add_sum, zero_add, hsh]
      simp [totalWeightOf]
    constructor
    · rw [hc]
      simp [commitResult, Customer.deductBalance, hsub', hw]
    · intro r hr
      rw [hc] at hr ⊢
      simp only [commitResult, Option.some.injEq] at hr
      rw [← hr]
      simp [commitResult, Customer.deductBalance]

/-- Witness for C10: starting from the fractional balance 1000.5, checkout
of scenario A stores exactly 726.5 while the receipt reports 726. -/
theorem balance_deducted_exact_witness :
    (checkout csC10).error = none
    ∧ (checkout csC10).state.customer.balance = 1453 / 2
    ∧ Option.map Receipt.balance (checkout csC10).receipt = some 726
    ∧ ((1453 / 2 : ℚ) ≠ ((726 : ℤ) : ℚ)) := by
  have herr : (checkout csC10).error = none := by with_unfolding_all rfl
  have h := balance_deducted_exact csC10 herr
  refine ⟨herr, ?_, by with_unfolding_all decide, by with_unfolding_all decide⟩
  rw [h.1]
  with_unfolding_all decide

end ECommerce
